import Mathlib

/-!
Verification of the streaming-ingestion and symbol-rotation logic of
`socket-multiple.py` and `socket-multiple-console-ui.py`
(binance-socket-led-matrix).

The embedding models:
- inbound JSON frames (`JValue`, with `json.loads` modelled by its contract:
  a frame either parses to a structured value or raises `JSONDecodeError`);
- Python `decimal.Decimal` values as sign/coefficient/exponent triples and
  the `'{0:.4f}'.format(...)` rendering used for the percent-change field;
- `BinanceSocket.handle_message` (identical in both source files), including
  its `try/except json.JSONDecodeError` structure: only `JSONDecodeError`
  is caught, every other exception escapes the handler;
- the read paths `render_ticker_canvas` / `update_console` (key
  normalisation happens at read time);
- `get_pairs_payload`, the two `fetch_ticker_data` variants, and
  `toggle_symbol` (the `itertools.cycle` iterator is modelled as a
  modulo-wrapped index cursor over the configured symbol list).
-/

/-- Python exceptions that can arise inside `handle_message`. -/
inductive PyExc where
  | jsonDecodeError
  | keyError (key : String)
  | invalidOperation
  | typeError
deriving DecidableEq, Repr

/-- Parsed JSON values, as produced by `json.loads`.  Object fields model the
resulting Python dict (keys unique, insertion order).  JSON floating-point
literals are not modelled; the feed transmits all numeric ticker fields as
JSON strings. -/
inductive JValue where
  | jnull
  | jbool (b : Bool)
  | jint (n : Int)
  | jstr (s : String)
  | jarr (elems : List JValue)
  | jobj (fields : List (String × JValue))

/-- One raw inbound websocket frame, classified by whether `json.loads`
accepts it.  `json.loads` is standard-library code, modelled by its
contract: it returns a structured value on a parseable document and raises
`json.JSONDecodeError` on every other input string. -/
inductive RawMessage where
  | parseable (j : JValue)
  | unparseable (s : String)

/-- Contract model of `json.loads`. -/
def jsonLoads : RawMessage → Except PyExc JValue
  | .parseable j => .ok j
  | .unparseable _ => .error .jsonDecodeError

/-- First-match lookup in a Python-dict field list (`data[k]` read side;
keys are unique, so first match is the dict entry). -/
def dictGet (fields : List (String × JValue)) (k : String) : Option JValue :=
  match fields with
  | [] => none
  | (k2, v) :: rest => if k2 = k then some v else dictGet rest k

/-- Python string helper: `s.replace('-', '')` removes every hyphen. -/
def stripDashes (s : String) : String :=
  String.mk (s.toList.filter (fun c => c ≠ '-'))

/-- Python string helper: `s.upper()` (ASCII; symbols are ASCII). -/
def upperStr (s : String) : String :=
  String.mk (s.toList.map Char.toUpper)

/-- Python string helper: `s.lower()` (ASCII). -/
def lowerStr (s : String) : String :=
  String.mk (s.toList.map Char.toLower)

/-- The read-side key normalisation `symbol.replace('-', '').upper()`. -/
def normalizeSym (s : String) : String := upperStr (stripDashes s)

/-- Python `decimal.Decimal` value in the plain finite form used by the
feed: sign, decimal coefficient, decimal exponent (value is
`(-1)^sign * coeff * 10^exp`). -/
structure PyDecimal where
  sign : Bool
  coeff : Nat
  exp : Int
deriving DecidableEq, Repr

/-- Digits of a char list read as a base-10 natural number. -/
def natOfDigits (cs : List Char) : Nat :=
  cs.foldl (fun a c => a * 10 + (c.toNat - 48)) 0

/-- Parse the plain decimal-string forms accepted by `Decimal(str)` that the
feed uses: optional sign, digits, optional fractional part
(`"1.2345"`, `"-0.5"`, `"10"`, `".5"`, `"1."`).  Returns `none` where
`Decimal` would raise `InvalidOperation`. -/
def parsePyDecimal (s : String) : Option PyDecimal :=
  let cs := s.toList
  let sgn : Bool :=
    match cs with
    | '-' :: _ => true
    | _ => false
  let body : List Char :=
    match cs with
    | '-' :: r => r
    | '+' :: r => r
    | r => r
  let ip := body.takeWhile (fun c => c ≠ '.')
  let rest := body.dropWhile (fun c => c ≠ '.')
  let fp : Option (List Char) :=
    match rest with
    | [] => some []
    | _ :: tl => if tl.contains '.' then none else some tl
  match fp with
  | none => none
  | some f =>
      if ip.all Char.isDigit && f.all Char.isDigit && decide (0 < ip.length + f.length) then
        some { sign := sgn, coeff := natOfDigits (ip ++ f), exp := -(f.length : Int) }
      else none

/-- Division rounding to the nearest integer with ties to even
(`ROUND_HALF_EVEN`, the rounding used by `format` on `Decimal`). -/
def halfEvenDiv (n d : Nat) : Nat :=
  let q := n / d
  let r := n % d
  if 2 * r < d then q
  else if d < 2 * r then q + 1
  else if q % 2 = 0 then q else q + 1

/-- Magnitude of `d` rescaled to exponent `-4` (4 decimal places), rounding
half-to-even when the source exponent is finer than `-4`. -/
def scaled4 (d : PyDecimal) : Nat :=
  if 0 ≤ d.exp + 4 then d.coeff * 10 ^ (d.exp + 4).toNat
  else halfEvenDiv d.coeff (10 ^ (-(d.exp + 4)).toNat)

/-- Left-pad a fractional part to exactly four digits. -/
def pad4 (n : Nat) : String :=
  let s := toString n
  String.mk (List.replicate (4 - s.length) '0') ++ s

/-- Python `'{0:.4f}'.format(d)` on a finite `Decimal`: sign, integer part,
dot, exactly four fractional digits, rounded half-to-even. -/
def format4 (d : PyDecimal) : String :=
  (if d.sign then "-" else "") ++ toString (scaled4 d / 10000) ++ "." ++ pad4 (scaled4 d % 10000)

/-- Exact rational value of a `PyDecimal`. -/
def PyDecimal.toRat (d : PyDecimal) : ℚ :=
  (if d.sign then -1 else 1) * (d.coeff : ℚ) * (10 : ℚ) ^ d.exp

/-- Exact rational value denoted by the `format4` rendering of `d`. -/
def fmt4Rat (d : PyDecimal) : ℚ :=
  (if d.sign then -1 else 1) * (scaled4 d : ℚ) / 10000

example : parsePyDecimal "1.2345" = some { sign := false, coeff := 12345, exp := -4 } := by decide

example : format4 { sign := false, coeff := 12345, exp := -4 } = "1.2345" := by decide

example : format4 { sign := false, coeff := 15, exp := -5 } = "0.0002" := by decide

example : format4 { sign := true, coeff := 5, exp := 0 } = "-5.0000" := by decide

example : normalizeSym "btc-usdt" = "BTCUSDT" := by decide

/-- One stored ticker snapshot: the dict literal built by `handle_message`
(`change` is the formatted percent change; the other fields keep the raw
JSON values of `c`, `v`, `s`, `q`). -/
structure Snapshot where
  change : String
  price : JValue
  vol : JValue
  symbol : JValue
  quote : JValue

/-- The `self.data` dict: latest snapshot per key.  Keys are whatever value
the inbound `s` field carried (Python dict keys). -/
def Store := List (JValue × Snapshot)

/-- Equality test used for dict keys.  Python keys occurring here are
hashable scalars; containers are rejected before insertion (`keyHashable`),
so a constructor-wise scalar comparison is faithful. -/
def keyEq : JValue → JValue → Bool
  | .jnull, .jnull => true
  | .jbool a, .jbool b => a == b
  | .jint a, .jint b => a == b
  | .jstr a, .jstr b => a == b
  | _, _ => false

/-- Python would raise `TypeError: unhashable type` when a list or dict is
used as a dict key. -/
def keyHashable : JValue → Bool
  | .jarr _ => false
  | .jobj _ => false
  | _ => true

/-- Dict write `self.data[key] = snap`: replace the entry for `key` if
present, else append. -/
def storePut (store : Store) (key : JValue) (snap : Snapshot) : Store :=
  match store with
  | [] => [(key, snap)]
  | (k, v) :: rest =>
      if keyEq k key then (key, snap) :: rest
      else (k, v) :: storePut rest key snap

/-- Dict read `self.data[key]` / `key in self.data` probe. -/
def storeGet (store : Store) (key : JValue) : Option Snapshot :=
  match store with
  | [] => none
  | (k, v) :: rest => if keyEq k key then some v else storeGet rest key

/-- Python subscription `data[k]` on a parsed JSON value: dict lookup
(raising `KeyError` when absent); string keys on lists or strings raise
`TypeError`; other receivers are not subscriptable. -/
def getItem (j : JValue) (k : String) : Except PyExc JValue :=
  match j with
  | .jobj fields =>
      match dictGet fields k with
      | some v => .ok v
      | none => .error (.keyError k)
  | _ => .error .typeError

/-- Whether the char list starts with the given needle. -/
def startsWithChars : List Char → List Char → Bool
  | _, [] => true
  | [], _ :: _ => false
  | c :: cs, d :: ds => c == d && startsWithChars cs ds

/-- Whether the needle occurs as a contiguous run of the haystack
(Python `needle in haystack` on strings). -/
def hasSubstring (needle : List Char) : List Char → Bool
  | [] => needle.isEmpty
  | c :: cs => startsWithChars (c :: cs) needle || hasSubstring needle cs

/-- Python `'id' in data` on the parsed value: key test on dicts, element
equality on lists, substring test on strings, `TypeError` otherwise. -/
def pyContainsId : JValue → Except PyExc Bool
  | .jobj fields => .ok (dictGet fields "id").isSome
  | .jarr elems =>
      .ok (elems.any (fun e =>
        match e with
        | .jstr s => s == "id"
        | _ => false))
  | .jstr s => .ok (hasSubstring "id".toList s.toList)
  | _ => .error .typeError

/-- Python `Decimal(x)` on a JSON-derived value: parses strings, is exact
on ints and bools (`bool` is an `int` in Python), raises otherwise. -/
def pyDecimalOf : JValue → Except PyExc PyDecimal
  | .jstr s =>
      match parsePyDecimal s with
      | some d => .ok d
      | none => .error .invalidOperation
  | .jint n => .ok { sign := decide (n < 0), coeff := n.natAbs, exp := 0 }
  | .jbool b => .ok { sign := false, coeff := if b then 1 else 0, exp := 0 }
  | _ => .error .typeError

/-- The dict literal on the right-hand side of the store assignment in
`handle_message`, with Python's left-to-right evaluation order
(`data['P']` then `Decimal`, then `data['c']`, `data['v']`, `data['s']`,
`data['q']`).  The record is fully built — or an exception is raised —
before any store mutation. -/
def buildSnapshot (j : JValue) : Except PyExc Snapshot := do
  let p ← getItem j "P"
  let d ← pyDecimalOf p
  let c ← getItem j "c"
  let v ← getItem j "v"
  let s ← getItem j "s"
  let q ← getItem j "q"
  pure { change := format4 d, price := c, vol := v, symbol := s, quote := q }

/-- Outcome of one `handle_message` call. -/
inductive HandleOutcome where
  | updated (key : JValue) (snap : Snapshot)
  | ignoredAck
  | malformed
  | raised (e : PyExc)

/-- Body of the `try:` block of `handle_message`: parse, check for `id`,
build the snapshot dict, store it under `data['s']`. -/
def handleBody (store : Store) (msg : RawMessage) : Except PyExc (Store × HandleOutcome) := do
  let data ← jsonLoads msg
  let hasId ← pyContainsId data
  if hasId then
    pure (store, .ignoredAck)
  else do
    let snap ← buildSnapshot data
    let key ← getItem data "s"
    if keyHashable key then
      pure (storePut store key snap, .updated key snap)
    else
      .error .typeError

/-- The full `handle_message`, including its `except json.JSONDecodeError`
clause: only `JSONDecodeError` is caught (logged, message skipped); every
other exception escapes the handler (`HandleOutcome.raised`). -/
def handle_message (store : Store) (msg : RawMessage) : Store × HandleOutcome :=
  match handleBody store msg with
  | .ok r => r
  | .error .jsonDecodeError => (store, .malformed)
  | .error e => (store, .raised e)

/-- Read path of `render_ticker_canvas` (LED variant) and `update_console` /
`update_ui` (console variant): normalise the configured symbol
(`symbol.replace('-', '').upper()`) and look it up; `none` models the
early `return` when the key is absent. -/
def render_ticker_canvas (store : Store) (symbol : String) : Option Snapshot :=
  storeGet store (.jstr (normalizeSym symbol))

/-- Payload construction `get_pairs_payload` (identical in both variants):
strip hyphens from each configured symbol (case untouched), wrap in
quotes with the `@ticker` suffix, join with commas, and splice into the
subscribe f-string with `id` 1. -/
def get_pairs_payload (symbols : List String) : String :=
  let syms := symbols.map (fun symbol => "\"" ++ stripDashes symbol ++ "@ticker\"")
  let strSymbols := String.intercalate "," syms
  "\x7b\"method\": \"SUBSCRIBE\", \"params\": [" ++ strSymbols ++ "], \"id\": 1\x7d"

/-- Subscribe payload as the spec sentence describes it, word for word:
the JSON object rendered exactly as written in the spec (no spaces), with
each configured symbol lower-cased, separator-stripped and suffixed with
`@ticker`. -/
def specSubscribePayload (symbols : List String) (id : Int) : String :=
  let syms := symbols.map (fun symbol => "\"" ++ lowerStr (stripDashes symbol) ++ "@ticker\"")
  "\x7b\"method\":\"SUBSCRIBE\",\"params\":[" ++ String.intercalate "," syms ++
    "],\"id\":" ++ toString id ++ "\x7d"

/-- Comma-separated params entries of the amended payload description:
each configured symbol keeps its case, loses its hyphens, and is wrapped
in quotes with the `@ticker` suffix.  Direct recursion, independent of
`get_pairs_payload`. -/
def amendedParams : List String → String
  | [] => ""
  | [s] => "\"" ++ stripDashes s ++ "@ticker\""
  | s :: rest => "\"" ++ stripDashes s ++ "@ticker\"" ++ "," ++ amendedParams rest

/-- Amended description of the payload: same JSON shape, but the symbols
keep their configured case (only hyphens are removed) and the rendering
carries the f-string's spaces after each colon, with `id` fixed to 1. -/
def amendedSubscribePayload (symbols : List String) : String :=
  "\x7b\"method\": \"SUBSCRIBE\", \"params\": [" ++ amendedParams symbols ++ "], \"id\": 1\x7d"

/-- How one websocket session can end, as seen by the `try` in
`fetch_ticker_data`: an exception raised while connecting or iterating
(connection closed, timeout, invalid URI, OS error, or an exception that
escaped `handle_message`), or the `async for` finishing normally. -/
inductive SessionEnd where
  | connectionClosed
  | timeoutError
  | invalidURI
  | osError
  | normalClose
  | handlerExc (e : PyExc)
deriving DecidableEq, Repr

/-- What one iteration of the `while True:` loop in `socket-multiple.py`
does with a session ending: `except (ConnectionClosed, TimeoutError)`
logs and sleeps 5 seconds, a normal close loops immediately, every other
exception propagates out of `fetch_ticker_data` (no enclosing handler:
the process dies). -/
inductive MultipleStep where
  | sleepRetry (secs : Nat)
  | immediateRetry
  | crash (e : SessionEnd)
deriving DecidableEq, Repr

/-- Dispatch of one session ending in the LED variant
(`socket-multiple.py`, lines 66-79). -/
def fetch_ticker_data_step : SessionEnd → MultipleStep
  | .connectionClosed => .sleepRetry 5
  | .timeoutError => .sleepRetry 5
  | .normalClose => .immediateRetry
  | e => .crash e

/-- Result of running the `while True:` loop of `socket-multiple.py` over a
finite script of session endings: either every ending was survived
(collecting the sleeps performed), or some ending crashed the loop. -/
inductive LoopRun where
  | stillRunning (sleeps : List Nat)
  | crashed (e : SessionEnd) (sleeps : List Nat)
deriving DecidableEq, Repr

/-- The `while True:` reconnect loop of `socket-multiple.py` over a script
of session endings. -/
def fetch_ticker_data : List SessionEnd → LoopRun
  | [] => .stillRunning []
  | e :: rest =>
      match fetch_ticker_data_step e with
      | .sleepRetry n =>
          match fetch_ticker_data rest with
          | .stillRunning s => .stillRunning (n :: s)
          | .crashed ex s => .crashed ex (n :: s)
      | .immediateRetry => fetch_ticker_data rest
      | .crash _ => .crashed e []

/-- Result of `fetch_ticker_data` in `socket-multiple-console-ui.py`
(lines 67-83): there is no loop; the `except` clause catches
`ConnectionClosed`, `TimeoutError`, `InvalidURI` and `OSError` and calls
`sys.exit(1)`; a normal close returns; other exceptions propagate. -/
inductive ConsoleRun where
  | sysExit (code : Nat)
  | returned
  | raisedExc (e : SessionEnd)
deriving DecidableEq, Repr

/-- Single-attempt connection handling of the console variant. -/
def fetch_ticker_data_console : SessionEnd → ConsoleRun
  | .connectionClosed => .sysExit 1
  | .timeoutError => .sysExit 1
  | .invalidURI => .sysExit 1
  | .osError => .sysExit 1
  | .normalClose => .returned
  | .handlerExc e => .raisedExc (.handlerExc e)

/-- Rotation state: the configured symbol list, the position of the
`itertools.cycle` iterator (modelled, as the spec's design note says, as a
modulo-wrapped index over the immutable list), and the presentation
counter `self.ctr`. -/
structure RotationState where
  symbols : List String
  idx : Nat
  ctr : Nat

/-- The `toggle_symbol` tick: `self.current_symbol = next(self.cycle_symbols)`
advances the cursor cyclically, and `self.ctr = 0`. -/
def toggle_symbol (st : RotationState) : RotationState :=
  { st with idx := (st.idx + 1) % st.symbols.length, ctr := 0 }

/-- The `self.current_symbol` read. -/
def current_symbol (st : RotationState) : String :=
  st.symbols.getD st.idx ""

/-- Valid ticker frame from the spec's end-to-end scenario. -/
def sampleFields : List (String × JValue) :=
  [("s", .jstr "BTCUSDT"), ("c", .jstr "50000.00"), ("P", .jstr "1.2345"),
   ("v", .jstr "10"), ("q", .jstr "500000")]

/-- Valid ticker frame whose symbol value is not in normalised form. -/
def lowerFields : List (String × JValue) :=
  [("P", .jstr "1.2345"), ("c", .jstr "50000.00"), ("v", .jstr "10"),
   ("s", .jstr "btc-usdt"), ("q", .jstr "500000")]

lemma handleBody_ok (store : Store) (msg : RawMessage) (r : Store × HandleOutcome)
    (h : handleBody store msg = .ok r) :
    r = (store, .ignoredAck) ∨ ∃ k snap, r = (storePut store k snap, .updated k snap) := by
  cases msg with
  | unparseable s => simp [handleBody, jsonLoads, Bind.bind, Except.bind] at h
  | parseable j =>
    simp only [handleBody, jsonLoads, Bind.bind, Except.bind] at h
    rcases hc : pyContainsId j with e | b
    · rw [hc] at h; cases h
    · rw [hc] at h
      cases b with
      | true =>
        simp only [if_true, Pure.pure, Except.pure] at h
        cases h
        exact Or.inl rfl
      | false =>
        simp only [Bool.false_eq_true, if_false, reduceIte] at h
        rcases hbs : buildSnapshot j with e | snap
        · rw [hbs] at h; cases h
        · rw [hbs] at h
          rcases hk : getItem j "s" with e | key
          · rw [hk] at h; cases h
          · rw [hk] at h
            by_cases hh : keyHashable key = true
            · simp only [hh, if_true, Pure.pure, Except.pure] at h
              cases h
              exact Or.inr ⟨key, snap, rfl⟩
            · simp only [hh, Bool.false_eq_true, if_false, reduceIte] at h
              cases h


/-- C10: for every inbound message on which handling does not complete a
full snapshot store, the ticker store is left exactly as it was: the
result of `handle_message` either leaves the store untouched, or is a
wholesale `storePut` of one fully-constructed snapshot (built before the
single store assignment). -/
theorem handle_message_atomic (store : Store) (msg : RawMessage) :
    (handle_message store msg).1 = store ∨
      ∃ k snap, handle_message store msg = (storePut store k snap, .updated k snap) := by
  unfold handle_message
  rcases hb : handleBody store msg with e | r
  · cases e <;> exact Or.inl rfl
  · rcases handleBody_ok store msg r hb with h | ⟨k, snap, h⟩
    · subst h; exact Or.inl rfl
    · subst h; exact Or.inr ⟨k, snap, rfl⟩

/-- C4: a frame that parses as a JSON object containing an `id` field is
ignored: the store is unchanged and the outcome is the dedicated
`ignoredAck` result, distinct from both failures and updates. -/
theorem ack_frame_ignored (store : Store) (fields : List (String × JValue)) (v : JValue)
    (h : dictGet fields "id" = some v) :
    handle_message store (.parseable (.jobj fields)) = (store, .ignoredAck) := by
  have hb : handleBody store (.parseable (.jobj fields)) = .ok (store, .ignoredAck) := by
    simp [handleBody, jsonLoads, pyContainsId, h, Bind.bind, Except.bind, Pure.pure, Except.pure]
  simp [handle_message, hb]

/-- Witness for `ack_frame_ignored` at the spec's end-to-end ack frame. -/
theorem ack_frame_ignored_witness :
    handle_message [] (.parseable (.jobj [("id", .jint 1), ("result", .jnull)])) =
      ([], .ignoredAck) :=
  ack_frame_ignored [] [("id", .jint 1), ("result", .jnull)] (.jint 1) rfl

/-- C5: every input string that `json.loads` rejects is caught by the
`except json.JSONDecodeError` clause: the outcome is the logged-and-skipped
`malformed` result, the store is unchanged, and no exception escapes. -/
theorem malformed_input_skipped (store : Store) (s : String) :
    handle_message store (.unparseable s) = (store, .malformed) := rfl

lemma getItem_error_ne_json (j : JValue) (k : String) (e : PyExc)
    (h : getItem j k = .error e) : e ≠ .jsonDecodeError := by
  cases j with
  | jobj fields =>
    rcases hd : dictGet fields k with _ | v
    · simp [getItem, hd] at h; simp [← h]
    · simp [getItem, hd] at h
  | jnull => simp [getItem] at h; simp [← h]
  | jbool b => simp [getItem] at h; simp [← h]
  | jint n => simp [getItem] at h; simp [← h]
  | jstr s => simp [getItem] at h; simp [← h]
  | jarr elems => simp [getItem] at h; simp [← h]

lemma pyDecimalOf_error_ne_json (v : JValue) (e : PyExc)
    (h : pyDecimalOf v = .error e) : e ≠ .jsonDecodeError := by
  cases v with
  | jstr s =>
    rcases hp : parsePyDecimal s with _ | d
    · simp [pyDecimalOf, hp] at h; simp [← h]
    · simp [pyDecimalOf, hp] at h
  | jnull => simp [pyDecimalOf] at h; simp [← h]
  | jbool b => simp [pyDecimalOf] at h
  | jint n => simp [pyDecimalOf] at h
  | jarr elems => simp [pyDecimalOf] at h; simp [← h]
  | jobj fields => simp [pyDecimalOf] at h; simp [← h]

lemma buildSnapshot_missing (fields : List (String × JValue))
    (hmiss : dictGet fields "P" = none ∨ dictGet fields "c" = none ∨
      dictGet fields "v" = none ∨ dictGet fields "s" = none ∨ dictGet fields "q" = none) :
    ∃ e : PyExc, e ≠ .jsonDecodeError ∧ buildSnapshot (.jobj fields) = .error e := by
  rcases hP : dictGet fields "P" with _ | p
  · exact ⟨.keyError "P", by simp,
      by simp [buildSnapshot, getItem, hP, Bind.bind, Except.bind]⟩
  rcases hd : pyDecimalOf p with e | d
  · exact ⟨e, pyDecimalOf_error_ne_json p e hd,
      by simp [buildSnapshot, getItem, hP, hd, Bind.bind, Except.bind]⟩
  rcases hc : dictGet fields "c" with _ | c
  · exact ⟨.keyError "c", by simp,
      by simp [buildSnapshot, getItem, hP, hd, hc, Bind.bind, Except.bind]⟩
  rcases hv : dictGet fields "v" with _ | v
  · exact ⟨.keyError "v", by simp,
      by simp [buildSnapshot, getItem, hP, hd, hc, hv, Bind.bind, Except.bind]⟩
  rcases hs : dictGet fields "s" with _ | s
  · exact ⟨.keyError "s", by simp,
      by simp [buildSnapshot, getItem, hP, hd, hc, hv, hs, Bind.bind, Except.bind]⟩
  rcases hq : dictGet fields "q" with _ | q
  · exact ⟨.keyError "q", by simp,
      by simp [buildSnapshot, getItem, hP, hd, hc, hv, hs, hq, Bind.bind, Except.bind]⟩
  rcases hmiss with h | h | h | h | h <;> simp_all

/-- C1 counterexample: the empty JSON object has no `id` field and is
missing every required ticker field, yet `handle_message` does not produce
a logged-and-skipped decode error: it raises `KeyError('P')`, which is not
the caught `JSONDecodeError`, and the receive loop of `socket-multiple.py`
treats that exception as a crash (its `except` clause catches only
`ConnectionClosed` and `TimeoutError`), so processing does not continue. -/
theorem missing_fields_cex :
    handle_message [] (.parseable (.jobj [])) = ([], .raised (.keyError "P")) ∧
    HandleOutcome.raised (.keyError "P") ≠ HandleOutcome.malformed ∧
    fetch_ticker_data_step (.handlerExc (.keyError "P")) =
      .crash (.handlerExc (.keyError "P")) :=
  ⟨rfl, fun h => HandleOutcome.noConfusion h, rfl⟩

/-- C1 (amended): a frame parsing as a JSON object without an `id` field
but missing at least one required ticker field makes `handle_message`
raise an uncaught exception (a `KeyError`, or an earlier failure while
converting `P`): the store is unchanged, the exception is not the caught
`JSONDecodeError`, and the reconnect loop treats it as a crash rather than
continuing. -/
theorem missing_fields_raise_uncaught (store : Store) (fields : List (String × JValue))
    (hid : dictGet fields "id" = none)
    (hmiss : dictGet fields "P" = none ∨ dictGet fields "c" = none ∨
      dictGet fields "v" = none ∨ dictGet fields "s" = none ∨ dictGet fields "q" = none) :
    ∃ e : PyExc, e ≠ .jsonDecodeError ∧
      handle_message store (.parseable (.jobj fields)) = (store, .raised e) ∧
      fetch_ticker_data_step (.handlerExc e) = .crash (.handlerExc e) := by
  obtain ⟨e, hne, hbs⟩ := buildSnapshot_missing fields hmiss
  refine ⟨e, hne, ?_, rfl⟩
  have hb : handleBody store (.parseable (.jobj fields)) = .error e := by
    simp [handleBody, jsonLoads, pyContainsId, hid, hbs, Bind.bind, Except.bind]
  unfold handle_message
  rw [hb]
  cases e with
  | jsonDecodeError => exact absurd rfl hne
  | keyError k => rfl
  | invalidOperation => rfl
  | typeError => rfl

/-- Witness for `missing_fields_raise_uncaught`: a frame carrying only a
symbol field. -/
theorem missing_fields_raise_uncaught_witness :
    ∃ e : PyExc, e ≠ .jsonDecodeError ∧
      handle_message [] (.parseable (.jobj [("s", .jstr "BTCUSDT")])) = ([], .raised e) ∧
      fetch_ticker_data_step (.handlerExc e) = .crash (.handlerExc e) :=
  missing_fields_raise_uncaught [] [("s", .jstr "BTCUSDT")] rfl (Or.inl rfl)

/-- C2 counterexample: connection failures do not always lead to a retry.
In `socket-multiple-console-ui.py` a closed connection makes
`fetch_ticker_data` call `sys.exit(1)` — the process exits instead of
backing off and reattempting; and in `socket-multiple.py` an invalid
endpoint is not in the caught exception tuple, so it crashes the loop. -/
theorem connection_failure_exits_cex :
    fetch_ticker_data_console .connectionClosed = .sysExit 1 ∧
    fetch_ticker_data_step .invalidURI = .crash .invalidURI :=
  ⟨rfl, rfl⟩

/-- C2 (amended): only `socket-multiple.py` retries, and only for remote
closes and timeouts: any finite script of such failures is survived, each
followed by exactly the fixed 5-second backoff, and the loop keeps
running; its single-attempt handling sends every other exception to a
crash.  The console variant never retries: each caught connection failure
(close, timeout, invalid URI, OS error) exits the process with code 1. -/
theorem reconnect_policy (script : List SessionEnd)
    (hs : ∀ e ∈ script, e = .connectionClosed ∨ e = .timeoutError) :
    fetch_ticker_data script = .stillRunning (script.map fun _ => 5) ∧
    (∀ e : SessionEnd, fetch_ticker_data_console e = .sysExit 1 ↔
      (e = .connectionClosed ∨ e = .timeoutError ∨ e = .invalidURI ∨ e = .osError)) := by
  constructor
  · induction script with
    | nil => rfl
    | cons e rest ih =>
      have he := hs e (List.mem_cons_self e rest)
      have hrest : ∀ x ∈ rest, x = SessionEnd.connectionClosed ∨ x = SessionEnd.timeoutError :=
        fun x hx => hs x (List.mem_cons_of_mem e hx)
      rcases he with he | he <;> subst he <;>
        simp [fetch_ticker_data, fetch_ticker_data_step, ih hrest]
  · intro e
    cases e <;> simp [fetch_ticker_data_console]

/-- Witness for `reconnect_policy` on a two-failure script. -/
theorem reconnect_policy_witness :
    fetch_ticker_data [.connectionClosed, .timeoutError] = .stillRunning [5, 5] ∧
    fetch_ticker_data_console .osError = .sysExit 1 :=
  ⟨(reconnect_policy [.connectionClosed, .timeoutError] (by decide)).1,
   ((reconnect_policy [] (by decide)).2 .osError).mpr (by decide)⟩

lemma intercalate_go_nil (acc s : String) : String.intercalate.go acc s [] = acc := by
  simp [String.intercalate.go]

lemma intercalate_go_cons (acc s a : String) (l : List String) :
    String.intercalate.go acc s (a :: l) = String.intercalate.go (acc ++ s ++ a) s l := by
  simp [String.intercalate.go]

lemma intercalate_go_factor (s x : String) (l : List String) :
    ∀ p : String, String.intercalate.go (x ++ p) s l = x ++ String.intercalate.go p s l := by
  induction l with
  | nil => intro p; simp [intercalate_go_nil]
  | cons a as ih =>
    intro p
    rw [intercalate_go_cons, intercalate_go_cons]
    have h2 : x ++ p ++ s ++ a = x ++ (p ++ s ++ a) := by
      simp [String.append_assoc]
    rw [h2, ih (p ++ s ++ a)]

/-- C3 counterexample: for the configured list `["BTC-USDT"]` the payload
built by `get_pairs_payload` does not contain the lower-cased entry
`"btcusdt@ticker"` the claim requires anywhere, and it differs from the
claimed byte-exact JSON rendering at every integer id (shown at id 1). -/
theorem subscribe_payload_cex :
    hasSubstring (lowerStr (stripDashes "BTC-USDT") ++ "@ticker").toList
        (get_pairs_payload ["BTC-USDT"]).toList = false ∧
    get_pairs_payload ["BTC-USDT"] ≠ specSubscribePayload ["BTC-USDT"] 1 := by
  constructor
  · decide
  · decide

lemma intercalate_cons_cons (s x y : String) (l : List String) :
    String.intercalate s (x :: y :: l) = x ++ s ++ String.intercalate s (y :: l) := by
  show String.intercalate.go x s (y :: l) = x ++ s ++ String.intercalate.go y s l
  rw [intercalate_go_cons, intercalate_go_factor]

lemma map_entry_intercalate (l : List String) :
    String.intercalate ","
        (l.map (fun symbol => "\"" ++ stripDashes symbol ++ "@ticker\"")) =
      amendedParams l := by
  induction l with
  | nil => rfl
  | cons s rest ih =>
    cases rest with
    | nil =>
      show String.intercalate.go _ "," [] = _
      rw [intercalate_go_nil]
      rfl
    | cons t ts =>
      simp only [List.map_cons] at ih ⊢
      rw [intercalate_cons_cons, ih]
      rfl

/-- C3 (amended): for every configured symbol list, the subscribe payload
sent once per connection is the JSON object
`{"method": "SUBSCRIBE", "params": [...], "id": 1}` (with the f-string's
spaces after each colon and integer id 1) in which each configured symbol
appears with hyphens stripped but its case preserved — not lower-cased —
suffixed with `@ticker`. -/
theorem subscribe_payload_amended (symbols : List String) :
    get_pairs_payload symbols = amendedSubscribePayload symbols := by
  simp only [get_pairs_payload, amendedSubscribePayload]
  rw [map_entry_intercalate]

lemma handle_message_valid (store : Store) (fields : List (String × JValue))
    (s P : String) (cv vv qv : JValue) (d : PyDecimal)
    (hid : dictGet fields "id" = none)
    (hP : dictGet fields "P" = some (.jstr P))
    (hdP : parsePyDecimal P = some d)
    (hc : dictGet fields "c" = some cv)
    (hv : dictGet fields "v" = some vv)
    (hs : dictGet fields "s" = some (.jstr s))
    (hq : dictGet fields "q" = some qv) :
    handle_message store (.parseable (.jobj fields)) =
      (storePut store (.jstr s)
        { change := format4 d, price := cv, vol := vv, symbol := .jstr s, quote := qv },
       .updated (.jstr s)
        { change := format4 d, price := cv, vol := vv, symbol := .jstr s, quote := qv }) := by
  have hb : handleBody store (.parseable (.jobj fields)) =
      .ok (storePut store (.jstr s)
        { change := format4 d, price := cv, vol := vv, symbol := .jstr s, quote := qv },
       .updated (.jstr s)
        { change := format4 d, price := cv, vol := vv, symbol := .jstr s, quote := qv }) := by
    simp [handleBody, jsonLoads, pyContainsId, hid, buildSnapshot, getItem, hP, hc, hv, hs, hq,
      pyDecimalOf, hdP, keyHashable, Bind.bind, Except.bind, Pure.pure, Except.pure]
  simp [handle_message, hb]

lemma storeGet_put_self (store : Store) (k : JValue) (snap : Snapshot)
    (hk : keyEq k k = true) :
    storeGet (storePut store k snap) k = some snap := by
  induction store with
  | nil => simp [storePut, storeGet, hk]
  | cons hd tl ih =>
    rcases hd with ⟨k2, v2⟩
    by_cases h : keyEq k2 k = true
    · simp [storePut, storeGet, h, hk]
    · simp only [storePut, storeGet, h, if_neg, Bool.false_eq_true, reduceIte]
      exact ih

/-- C6 counterexample: a valid ticker frame whose `s` value is
`"btc-usdt"` is stored under that raw key — not upper-cased, not
hyphen-stripped — so the store holds a non-normalised key and the reader,
which looks up the normalised current symbol, misses the snapshot it just
stored for that very symbol. -/
theorem store_key_not_normalized_cex :
    (handle_message [] (.parseable (.jobj lowerFields))).1 =
      [(.jstr "btc-usdt",
        { change := "1.2345", price := .jstr "50000.00", vol := .jstr "10",
          symbol := .jstr "btc-usdt", quote := .jstr "500000" })] ∧
    normalizeSym "btc-usdt" ≠ "btc-usdt" ∧
    render_ticker_canvas (handle_message [] (.parseable (.jobj lowerFields))).1 "btc-usdt" =
      none :=
  ⟨rfl, by decide, rfl⟩

/-- C6 (amended): `handle_message` stores each valid snapshot under the
raw inbound `s` value, unchanged; normalisation (upper-case, hyphens
stripped) is applied only to the configured symbol on the read path.
Consequently, whenever the inbound `s` value is already in normalised form
— as the feed's symbols are — the stored key is normalised and the reader
looking up that symbol finds exactly the stored snapshot. -/
theorem store_key_raw (store : Store) (fields : List (String × JValue))
    (s P : String) (cv vv qv : JValue) (d : PyDecimal)
    (hid : dictGet fields "id" = none)
    (hP : dictGet fields "P" = some (.jstr P))
    (hdP : parsePyDecimal P = some d)
    (hc : dictGet fields "c" = some cv)
    (hv : dictGet fields "v" = some vv)
    (hs : dictGet fields "s" = some (.jstr s))
    (hq : dictGet fields "q" = some qv) :
    (handle_message store (.parseable (.jobj fields))).1 =
      storePut store (.jstr s)
        { change := format4 d, price := cv, vol := vv, symbol := .jstr s, quote := qv } ∧
    (normalizeSym s = s →
      render_ticker_canvas (handle_message store (.parseable (.jobj fields))).1 s =
        some { change := format4 d, price := cv, vol := vv, symbol := .jstr s, quote := qv }) := by
  have hm := handle_message_valid store fields s P cv vv qv d hid hP hdP hc hv hs hq
  constructor
  · rw [hm]
  · intro hnorm
    rw [hm]
    show storeGet _ (.jstr (normalizeSym s)) = _
    rw [hnorm]
    exact storeGet_put_self store (.jstr s) _ (by simp [keyEq])

/-- Witness for `store_key_raw` at the spec's end-to-end frame (symbol
already normalised). -/
theorem store_key_raw_witness :
    (handle_message [] (.parseable (.jobj sampleFields))).1 =
      storePut [] (.jstr "BTCUSDT")
        { change := format4 { sign := false, coeff := 12345, exp := -4 },
          price := .jstr "50000.00", vol := .jstr "10",
          symbol := .jstr "BTCUSDT", quote := .jstr "500000" } ∧
    (normalizeSym "BTCUSDT" = "BTCUSDT" →
      render_ticker_canvas (handle_message [] (.parseable (.jobj sampleFields))).1 "BTCUSDT" =
        some { change := format4 { sign := false, coeff := 12345, exp := -4 },
               price := .jstr "50000.00", vol := .jstr "10",
               symbol := .jstr "BTCUSDT", quote := .jstr "500000" }) :=
  store_key_raw [] sampleFields "BTCUSDT" "1.2345" (.jstr "50000.00") (.jstr "10")
    (.jstr "500000") { sign := false, coeff := 12345, exp := -4 }
    rfl rfl (by decide) rfl rfl rfl rfl

lemma halfEvenDiv_close (n d : Nat) (hd : 0 < d) :
    2 * ((halfEvenDiv n d : Int) * d - n) ≤ d ∧
      -(d : Int) ≤ 2 * ((halfEvenDiv n d : Int) * d - n) := by
  have hlt : n % d < d := Nat.mod_lt n hd
  have h2 : (d : Int) * ((n / d : Nat) : Int) + ((n % d : Nat) : Int) = (n : Int) := by
    exact_mod_cast congrArg (Nat.cast : Nat → Int) (Nat.div_add_mod n d)
  have hq : ((n / d : Nat) : Int) * (d : Int) = (n : Int) - ((n % d : Nat) : Int) := by
    linarith [mul_comm (d : Int) ((n / d : Nat) : Int)]
  simp only [halfEvenDiv]
  by_cases h1 : 2 * (n % d) < d
  · simp only [h1, if_true]
    omega
  · simp only [h1, if_false]
    by_cases hgt : d < 2 * (n % d)
    · simp only [hgt, if_true]
      rw [Nat.cast_add, Nat.cast_one, add_mul, one_mul]
      omega
    · simp only [hgt, if_false]
      by_cases h3 : n / d % 2 = 0
      · simp only [h3, if_true]
        omega
      · simp only [h3, if_false]
        rw [Nat.cast_add, Nat.cast_one, add_mul, one_mul]
        omega

lemma scaled4_core_close (d : PyDecimal) :
    |(scaled4 d : ℚ) / 10000 - (d.coeff : ℚ) * (10 : ℚ) ^ d.exp| ≤ 1 / 20000 := by
  by_cases hA : 0 ≤ d.exp + 4
  · have ht : ((d.exp + 4).toNat : ℤ) = d.exp + 4 := Int.toNat_of_nonneg hA
    have heq : (scaled4 d : ℚ) / 10000 = (d.coeff : ℚ) * (10 : ℚ) ^ d.exp := by
      simp only [scaled4, if_pos hA]
      have hexp : (10 : ℚ) ^ d.exp = (10 : ℚ) ^ (((d.exp + 4).toNat : ℤ) - 4) := by
        rw [ht]; ring_nf
      rw [hexp, zpow_sub₀ (by norm_num : (10 : ℚ) ≠ 0)]
      rw [zpow_natCast]
      push_cast
      have h4 : (10 : ℚ) ^ (4 : ℤ) = 10000 := by norm_num
      rw [h4]
      ring
    rw [heq]
    simp
  · set k : ℕ := (-(d.exp + 4)).toNat with hkdef
    have hk : (k : ℤ) = -(d.exp + 4) := Int.toNat_of_nonneg (by omega)
    set D : ℕ := 10 ^ k with hDdef
    have hDpos : 0 < D := Nat.pos_pow_of_pos k (by norm_num)
    set q : ℕ := halfEvenDiv d.coeff D with hqdef
    have hsc : scaled4 d = q := by
      simp only [scaled4, if_neg hA, hqdef, hDdef, hkdef]
    have hb := halfEvenDiv_close d.coeff D hDpos
    have hb1 : (2 : ℚ) * ((q : ℚ) * (10 : ℚ) ^ k - (d.coeff : ℚ)) ≤ (10 : ℚ) ^ k := by
      have hcast : ((2 * ((q : Int) * D - d.coeff) : Int) : ℚ) ≤ ((D : Int) : ℚ) := by
        exact_mod_cast hb.1
      push_cast [hDdef] at hcast
      convert hcast using 2
    have hb2 : -((10 : ℚ) ^ k) ≤ (2 : ℚ) * ((q : ℚ) * (10 : ℚ) ^ k - (d.coeff : ℚ)) := by
      have hcast : ((-(D : Int) : Int) : ℚ) ≤ ((2 * ((q : Int) * D - d.coeff) : Int) : ℚ) := by
        exact_mod_cast hb.2
      push_cast [hDdef] at hcast
      convert hcast using 2
    have hkey : (2 : ℚ) * |(q : ℚ) * (10 : ℚ) ^ k - (d.coeff : ℚ)| ≤ (10 : ℚ) ^ k := by
      rcases abs_cases ((q : ℚ) * (10 : ℚ) ^ k - (d.coeff : ℚ)) with ⟨he, _⟩ | ⟨he, _⟩ <;>
        rw [he] <;> linarith
    have hexp : (10 : ℚ) ^ d.exp = ((10 : ℚ) ^ (k : ℕ) * 10000)⁻¹ := by
      have hde : d.exp = -((k : ℤ) + 4) := by omega
      rw [hde, zpow_neg, zpow_add₀ (by norm_num : (10 : ℚ) ≠ 0)]
      have h4 : (10 : ℚ) ^ (4 : ℤ) = 10000 := by norm_num
      rw [h4, zpow_natCast]
    have h10p : (0 : ℚ) < (10 : ℚ) ^ (k : ℕ) := by positivity
    rw [hsc, hexp]
    have hform : (q : ℚ) / 10000 - (d.coeff : ℚ) * ((10 : ℚ) ^ (k : ℕ) * 10000)⁻¹ =
        ((q : ℚ) * (10 : ℚ) ^ (k : ℕ) - (d.coeff : ℚ)) / ((10 : ℚ) ^ (k : ℕ) * 10000) := by
      field_simp
      ring
    have hdenpos : (0 : ℚ) < (10 : ℚ) ^ (k : ℕ) * 10000 := by positivity
    rw [hform, abs_div, abs_of_pos hdenpos, div_le_div_iff₀ hdenpos (by norm_num)]
    linarith [hkey]

lemma fmt4Rat_close (d : PyDecimal) : |fmt4Rat d - d.toRat| ≤ 1 / 20000 := by
  have core := scaled4_core_close d
  unfold fmt4Rat PyDecimal.toRat
  cases hsgn : d.sign
  · simp only [Bool.false_eq_true, reduceIte, one_mul]
    exact core
  · simp only [reduceIte]
    have hneg : (-1 : ℚ) * (scaled4 d : ℚ) / 10000 - -1 * (d.coeff : ℚ) * (10 : ℚ) ^ d.exp =
        -((scaled4 d : ℚ) / 10000 - (d.coeff : ℚ) * (10 : ℚ) ^ d.exp) := by ring
    rw [hneg, abs_neg]
    exact core

lemma fmt4Rat_int (d : PyDecimal) :
    ∃ z : ℤ, fmt4Rat d * 10000 = (z : ℚ) := by
  refine ⟨if d.sign then -(scaled4 d : ℤ) else (scaled4 d : ℤ), ?_⟩
  unfold fmt4Rat
  cases hsgn : d.sign
  · simp only [Bool.false_eq_true, reduceIte, one_mul]
    push_cast
    field_simp
  · simp only [reduceIte]
    push_cast
    field_simp

/-- C7: for a valid ticker frame (symbol in normalised form, as the feed
sends it), decode-then-store-then-read returns a snapshot whose price,
base volume and quote volume are exactly the inbound `c`, `v`, `q` values
(no coercion, no precision loss), and whose percent-change field is the
inbound `P` rendered by exact decimal arithmetic at exactly 4 decimal
places: the rendered value is an integer multiple of 1/10000 within
1/20000 of the exact value of `P`. -/
theorem ticker_roundtrip (store : Store) (fields : List (String × JValue))
    (s P : String) (cv vv qv : JValue) (d : PyDecimal)
    (hid : dictGet fields "id" = none)
    (hP : dictGet fields "P" = some (.jstr P))
    (hdP : parsePyDecimal P = some d)
    (hc : dictGet fields "c" = some cv)
    (hv : dictGet fields "v" = some vv)
    (hs : dictGet fields "s" = some (.jstr s))
    (hq : dictGet fields "q" = some qv)
    (hnorm : normalizeSym s = s) :
    ∃ snap : Snapshot,
      handle_message store (.parseable (.jobj fields)) =
        (storePut store (.jstr s) snap, .updated (.jstr s) snap) ∧
      render_ticker_canvas (storePut store (.jstr s) snap) s = some snap ∧
      snap.price = cv ∧ snap.vol = vv ∧ snap.quote = qv ∧ snap.symbol = .jstr s ∧
      snap.change = format4 d ∧
      |fmt4Rat d - d.toRat| ≤ 1 / 20000 ∧
      ∃ z : ℤ, fmt4Rat d * 10000 = (z : ℚ) := by
  refine ⟨{ change := format4 d, price := cv, vol := vv, symbol := .jstr s, quote := qv },
    handle_message_valid store fields s P cv vv qv d hid hP hdP hc hv hs hq,
    ?_, rfl, rfl, rfl, rfl, rfl, fmt4Rat_close d, fmt4Rat_int d⟩
  show storeGet _ (.jstr (normalizeSym s)) = _
  rw [hnorm]
  exact storeGet_put_self store (.jstr s) _ (by simp [keyEq])

/-- Witness for `ticker_roundtrip` at the spec's end-to-end frame. -/
theorem ticker_roundtrip_witness :
    ∃ snap : Snapshot,
      handle_message [] (.parseable (.jobj sampleFields)) =
        (storePut [] (.jstr "BTCUSDT") snap, .updated (.jstr "BTCUSDT") snap) ∧
      render_ticker_canvas (storePut [] (.jstr "BTCUSDT") snap) "BTCUSDT" = some snap ∧
      snap.price = .jstr "50000.00" ∧ snap.vol = .jstr "10" ∧
      snap.quote = .jstr "500000" ∧ snap.symbol = .jstr "BTCUSDT" ∧
      snap.change = format4 { sign := false, coeff := 12345, exp := -4 } ∧
      |fmt4Rat { sign := false, coeff := 12345, exp := -4 } -
        PyDecimal.toRat { sign := false, coeff := 12345, exp := -4 }| ≤ 1 / 20000 ∧
      ∃ z : ℤ, fmt4Rat { sign := false, coeff := 12345, exp := -4 } * 10000 = (z : ℚ) :=
  ticker_roundtrip [] sampleFields "BTCUSDT" "1.2345" (.jstr "50000.00") (.jstr "10")
    (.jstr "500000") { sign := false, coeff := 12345, exp := -4 }
    rfl rfl (by decide) rfl rfl rfl rfl (by decide)

lemma toggle_iter_symbols (n : ℕ) (st : RotationState) :
    ((toggle_symbol^[n]) st).symbols = st.symbols := by
  induction n with
  | zero => rfl
  | succ n ih => rw [Function.iterate_succ_apply']; exact ih

lemma toggle_iter_idx (n : ℕ) (st : RotationState) (hidx : st.idx < st.symbols.length) :
    ((toggle_symbol^[n]) st).idx = (st.idx + n) % st.symbols.length := by
  induction n with
  | zero => simpa using (Nat.mod_eq_of_lt hidx).symm
  | succ n ih =>
    rw [Function.iterate_succ_apply']
    show (((toggle_symbol^[n]) st).idx + 1) % ((toggle_symbol^[n]) st).symbols.length = _
    rw [toggle_iter_symbols n st, ih, Nat.mod_add_mod, Nat.add_assoc]

/-- C8: rotation is cyclic over the configured list: after any multiple of
`L` ticks the cursor and current symbol are back where they started; one
full cycle of `L` ticks visits exactly the configured symbols — it is a
rotation of the configured list (order preserved, no skips, no
duplicates), hence a permutation of it — and every single tick resets the
presentation counter to 0. -/
theorem rotation_cyclic (st : RotationState) (N : ℕ)
    (hidx : st.idx < st.symbols.length)
    (hdvd : st.symbols.length ∣ N) :
    (((toggle_symbol^[N]) st).idx = st.idx ∧
      current_symbol ((toggle_symbol^[N]) st) = current_symbol st) ∧
    ((List.range st.symbols.length).map
        (fun i => current_symbol ((toggle_symbol^[i + 1]) st)) =
      st.symbols.rotate ((st.idx + 1) % st.symbols.length)) ∧
    ((List.range st.symbols.length).map
        (fun i => current_symbol ((toggle_symbol^[i + 1]) st))).Perm st.symbols ∧
    ∀ s2 : RotationState, (toggle_symbol s2).ctr = 0 := by
  obtain ⟨m, hm⟩ := hdvd
  have hL : 0 < st.symbols.length := Nat.lt_of_le_of_lt (Nat.zero_le st.idx) hidx
  have hN : ((toggle_symbol^[N]) st).idx = st.idx := by
    rw [toggle_iter_idx N st hidx, hm, Nat.add_mul_mod_self_left, Nat.mod_eq_of_lt hidx]
  have hvis : (List.range st.symbols.length).map
      (fun i => current_symbol ((toggle_symbol^[i + 1]) st)) =
      st.symbols.rotate ((st.idx + 1) % st.symbols.length) := by
    apply List.ext_getElem
    · simp
    · intro i h1 h2
      have hiL : i < st.symbols.length := by simpa using h1
      rw [List.getElem_map, List.getElem_range]
      show current_symbol ((toggle_symbol^[i + 1]) st) = _
      unfold current_symbol
      rw [toggle_iter_symbols, toggle_iter_idx (i + 1) st hidx]
      rw [List.getElem_rotate]
      have hmod : (st.idx + (i + 1)) % st.symbols.length =
          (i + (st.idx + 1) % st.symbols.length) % st.symbols.length := by
        rw [Nat.add_mod_mod]
        have : st.idx + (i + 1) = i + (st.idx + 1) := by omega
        rw [this]
      rw [List.getD_eq_getElem st.symbols "" (by
        rw [hmod]
        exact Nat.mod_lt _ hL)]
      simp only [hmod]
  refine ⟨⟨hN, ?_⟩, hvis, ?_, fun s2 => rfl⟩
  · unfold current_symbol
    rw [toggle_iter_symbols, hN]
  · rw [hvis]
    exact List.rotate_perm st.symbols ((st.idx + 1) % st.symbols.length)

/-- Witness for `rotation_cyclic`: two configured symbols, four ticks. -/
theorem rotation_cyclic_witness :
    current_symbol
        ((toggle_symbol^[4]) { symbols := ["BTC-USDT", "ETH-USDT"], idx := 0, ctr := 5 }) =
      current_symbol { symbols := ["BTC-USDT", "ETH-USDT"], idx := 0, ctr := 5 } :=
  (rotation_cyclic { symbols := ["BTC-USDT", "ETH-USDT"], idx := 0, ctr := 5 } 4
    (by decide) (by decide)).1.2
